import Mathlib

/-!
Verification of the fractional real-estate ledger
(src/real_estate_fractional_backend/src/lib.rs).

The canister state (thread-local `HashMap`s and a `Vec` of listings) is
embedded as association lists inside a single `State` structure, and every
public update/query method is embedded as a pure function from `State` to a
result paired with the next `State`.  `u64` values are modelled as `Nat`;
every subtraction performed by the source is guarded by a comparison, so
truncated subtraction agrees with the machine arithmetic (this is itself
proved below via the `..._checked` variants).
-/

set_option maxHeartbeats 1000000

namespace RealEstate

/-- Key/value association list lookup: first entry with the given key. -/
def alGet {κ α : Type} [DecidableEq κ] : List (κ × α) → κ → Option α
  | [], _ => none
  | (k0, v0) :: rest, k => if k0 = k then some v0 else alGet rest k

/-- Lookup with default 0, the `get(..).cloned().unwrap_or(0)` idiom. -/
def alGetD {κ : Type} [DecidableEq κ] (m : List (κ × Nat)) (k : κ) : Nat :=
  (alGet m k).getD 0

/-- `HashMap::insert`: overwrite the entry for the key, or append it. -/
def alIns {κ α : Type} [DecidableEq κ] : List (κ × α) → κ → α → List (κ × α)
  | [], k, v => [(k, v)]
  | (k0, v0) :: rest, k, v =>
    if k0 = k then (k0, v) :: rest else (k0, v0) :: alIns rest k v

/-- The `*map.entry(k).or_insert(0) += v` idiom: add to the entry, creating
it at 0 first when absent. -/
def alAdd {κ : Type} [DecidableEq κ] : List (κ × Nat) → κ → Nat → List (κ × Nat)
  | [], k, v => [(k, v)]
  | (k0, v0) :: rest, k, v =>
    if k0 = k then (k0, v0 + v) :: rest else (k0, v0) :: alAdd rest k v

/-- `HashMap::remove`: drop the entry for the key. -/
def alRemove {κ α : Type} [DecidableEq κ] : List (κ × α) → κ → List (κ × α)
  | [], _ => []
  | (k0, v0) :: rest, k => if k0 = k then rest else (k0, v0) :: alRemove rest k

deriving instance DecidableEq for Except

/-- Mirror of the Rust `Property` struct. -/
structure Property where
  id : Nat
  name : String
  total_shares : Nat
  shares_available : Nat
deriving DecidableEq

/-- Mirror of the Rust `Listing` struct. -/
structure Listing where
  property_id : Nat
  seller : String
  amount : Nat
  price_per_share : Nat
deriving DecidableEq

/-- The whole canister state: the six thread-local collections. -/
structure State where
  properties : List (Nat × Property)
  ownership : List ((Nat × String) × Nat)
  next_property_id : Nat
  rental_income : List (Nat × Nat)
  unclaimed_income : List ((Nat × String) × Nat)
  marketplace : List Listing
deriving DecidableEq

/-- The state at canister installation: empty maps, next id 1. -/
def initState : State :=
  { properties := [], ownership := [], next_property_id := 1,
    rental_income := [], unclaimed_income := [], marketplace := [] }

def msgSharesIssued : String := "Shares issued"
def msgErrIssue : String := "Not enough shares or property not found"
def msgIncomeDistributed : String := "Rental income distributed"
def msgErrDeposit : String := "Property not found or has no shares"
def msgSharesListed : String := "Shares listed for sale"
def msgErrList : String := "Not enough shares to list"
def msgSharesBought : String := "Shares bought successfully"
def msgErrBuy : String := "Listing not found or insufficient shares"
def msgSharesTransferred : String := "Shares transferred"
def msgErrTransfer : String := "Not enough shares to transfer"

/-- `register_property`: allocate the next id, store the property with
`shares_available = total_shares`, return it. -/
def register_property (s : State) (name : String) (total_shares : Nat) :
    Property × State :=
  ({ id := s.next_property_id, name := name, total_shares := total_shares,
     shares_available := total_shares },
   { s with
       properties := alIns s.properties s.next_property_id
         { id := s.next_property_id, name := name, total_shares := total_shares,
           shares_available := total_shares },
       next_property_id := s.next_property_id + 1 })

/-- `issue_shares`: requires the property to exist with
`shares_available >= amount`; moves `amount` out of availability into the
recipient's ownership entry. -/
def issue_shares (s : State) (property_id : Nat) (dst : String) (amount : Nat) :
    Except String String × State :=
  match alGet s.properties property_id with
  | some prop =>
    if amount ≤ prop.shares_available then
      (Except.ok msgSharesIssued,
       { s with
           properties := alIns s.properties property_id
             { prop with shares_available := prop.shares_available - amount },
           ownership := alAdd s.ownership (property_id, dst) amount })
    else
      (Except.error msgErrIssue, s)
  | none => (Except.error msgErrIssue, s)

/-- `get_property` query. -/
def get_property (s : State) (property_id : Nat) : Option Property :=
  alGet s.properties property_id

/-- `get_ownership` query: 0 when no entry exists. -/
def get_ownership (s : State) (property_id : Nat) (user : String) : Nat :=
  alGetD s.ownership (property_id, user)

/-- The `total_shares` read performed by `deposit_rental_income`:
0 when the property is absent. -/
def propTotalShares (s : State) (property_id : Nat) : Nat :=
  match alGet s.properties property_id with
  | some p => p.total_shares
  | none => 0

/-- 2^64, the modulus of the source's u64 arithmetic. -/
def U64 : Nat := 2 ^ 64

/-- The distribution loop of `deposit_rental_income`: walk the ownership
entries and credit `amount * shares / total` to every owner of this property
holding a strictly positive balance.  The u64 product `amount * shares`
wraps modulo 2^64 (release-profile semantics), so the credit is
`amount * shares % U64 / total`. -/
def distributeIncome (property_id amount total : Nat) :
    List ((Nat × String) × Nat) → List ((Nat × String) × Nat) →
      List ((Nat × String) × Nat)
  | ui, [] => ui
  | ui, e :: rest =>
    distributeIncome property_id amount total
      (if e.1.1 = property_id ∧ 0 < e.2 then
        alAdd ui (property_id, e.1.2) (amount * e.2 % U64 / total)
      else ui) rest

/-- `deposit_rental_income`: the source first adds `amount` to the rental
income total, then checks the property, then distributes pro-rata. -/
def deposit_rental_income (s : State) (property_id amount : Nat) :
    Except String String × State :=
  if propTotalShares s property_id = 0 then
    (Except.error msgErrDeposit,
     { s with rental_income := alAdd s.rental_income property_id amount })
  else
    (Except.ok msgIncomeDistributed,
     { s with
         rental_income := alAdd s.rental_income property_id amount,
         unclaimed_income :=
           distributeIncome property_id amount (propTotalShares s property_id)
             s.unclaimed_income s.ownership })

/-- `claim_income`: `remove(..).unwrap_or(0)` on the unclaimed-income map. -/
def claim_income (s : State) (property_id : Nat) (user : String) :
    Nat × State :=
  (alGetD s.unclaimed_income (property_id, user),
   { s with unclaimed_income := alRemove s.unclaimed_income (property_id, user) })

/-- `get_unclaimed_income` query. -/
def get_unclaimed_income (s : State) (property_id : Nat) (user : String) : Nat :=
  alGetD s.unclaimed_income (property_id, user)

/-- `list_shares_for_sale`: requires the seller to own at least `amount`
now; appends a listing. -/
def list_shares_for_sale (s : State) (property_id : Nat) (seller : String)
    (amount price_per_share : Nat) : Except String String × State :=
  if alGetD s.ownership (property_id, seller) < amount then
    (Except.error msgErrList, s)
  else
    (Except.ok msgSharesListed,
     { s with marketplace := s.marketplace ++
         [{ property_id := property_id, seller := seller, amount := amount,
            price_per_share := price_per_share }] })

/-- The predicate of the `position` scan in `buy_shares`. -/
def listingMatches (property_id : Nat) (seller : String) (amount : Nat)
    (l : Listing) : Bool :=
  decide (l.property_id = property_id) && decide (l.seller = seller) &&
    decide (amount ≤ l.amount)

/-- The ownership mutation of `buy_shares`: `entry(seller).or_insert(0)`,
early return when the balance is short (leaving balances untouched),
otherwise move `amount` from seller to buyer. -/
def buyOwnUpdate (own : List ((Nat × String) × Nat)) (property_id : Nat)
    (seller buyer : String) (amount : Nat) : List ((Nat × String) × Nat) :=
  let own1 := alAdd own (property_id, seller) 0
  let ss := alGetD own1 (property_id, seller)
  if ss < amount then own1
  else alAdd (alIns own1 (property_id, seller) (ss - amount))
    (property_id, buyer) amount

/-- The listing mutation of `buy_shares`: remove the matched listing when
fully consumed, otherwise decrement its amount. -/
def buyListingUpdate (l : Listing) (amount : Nat) (rest : List Listing) :
    List Listing :=
  if l.amount = amount then rest
  else { l with amount := l.amount - amount } :: rest

/-- The `position`-then-mutate body of `buy_shares`: find the first listing
matching `(property_id, seller)` with enough amount, apply the ownership and
listing mutations there. `none` means no listing matched. -/
def buyScan (own : List ((Nat × String) × Nat)) (property_id : Nat)
    (seller buyer : String) (amount : Nat) :
    List Listing → Option (List ((Nat × String) × Nat) × List Listing)
  | [] => none
  | l :: rest =>
    if listingMatches property_id seller amount l then
      some (buyOwnUpdate own property_id seller buyer amount,
            buyListingUpdate l amount rest)
    else
      match buyScan own property_id seller buyer amount rest with
      | none => none
      | some (own2, mp2) => some (own2, l :: mp2)

/-- `buy_shares`: scan the marketplace; on a match commit the (possibly
skipped) ownership move and the listing update and report success, else
report the error. -/
def buy_shares (s : State) (property_id : Nat) (seller buyer : String)
    (amount : Nat) : Except String String × State :=
  match buyScan s.ownership property_id seller buyer amount s.marketplace with
  | none => (Except.error msgErrBuy, s)
  | some (own2, mp2) =>
    (Except.ok msgSharesBought, { s with ownership := own2, marketplace := mp2 })

/-- `transfer_shares`: `entry(from).or_insert(0)`, fail when the balance is
short, else move `amount` from `frm` to `to`. -/
def transfer_shares (s : State) (property_id : Nat) (frm dst : String)
    (amount : Nat) : Except String String × State :=
  let own1 := alAdd s.ownership (property_id, frm) 0
  let fs := alGetD own1 (property_id, frm)
  if fs < amount then
    (Except.error msgErrTransfer, { s with ownership := own1 })
  else
    (Except.ok msgSharesTransferred,
     { s with ownership :=
         (alAdd (alIns own1 (property_id, frm) (fs - amount))
           (property_id, dst) amount) })

/-- `get_marketplace_listings` query. -/
def get_marketplace_listings (s : State) : List Listing :=
  s.marketplace

/-- Sum of the ownership balances recorded for one property. -/
def ownSum : List ((Nat × String) × Nat) → Nat → Nat
  | [], _ => 0
  | (k, v) :: rest, property_id =>
    (if k.1 = property_id then v else 0) + ownSum rest property_id

/-- One public mutating operation, for reachability statements. -/
inductive Op where
  | register (name : String) (total_shares : Nat)
  | issue (property_id : Nat) (dst : String) (amount : Nat)
  | transfer (property_id : Nat) (frm dst : String) (amount : Nat)
  | listSale (property_id : Nat) (seller : String) (amount price : Nat)
  | buy (property_id : Nat) (seller buyer : String) (amount : Nat)
  | deposit (property_id amount : Nat)
  | claim (property_id : Nat) (user : String)

/-- Apply one operation, keeping only the state. -/
def step (s : State) : Op → State
  | Op.register name total => (register_property s name total).2
  | Op.issue pid dst a => (issue_shares s pid dst a).2
  | Op.transfer pid frm dst a => (transfer_shares s pid frm dst a).2
  | Op.listSale pid seller a price => (list_shares_for_sale s pid seller a price).2
  | Op.buy pid seller buyer a => (buy_shares s pid seller buyer a).2
  | Op.deposit pid a => (deposit_rental_income s pid a).2
  | Op.claim pid u => (claim_income s pid u).2

/-- The state reached from installation by a sequence of operations. -/
def run (ops : List Op) : State :=
  ops.foldl step initState

/-- Guarded machine subtraction: `none` signals a u64 underflow. -/
def checkedSub (a b : Nat) : Option Nat :=
  if b ≤ a then some (a - b) else none

/-- `issue_shares` with its subtraction site guarded by `checkedSub`. -/
def issue_shares_checked (s : State) (property_id : Nat) (dst : String)
    (amount : Nat) : Option (Except String String × State) :=
  match alGet s.properties property_id with
  | some prop =>
    if amount ≤ prop.shares_available then
      match checkedSub prop.shares_available amount with
      | none => none
      | some av =>
        some (Except.ok msgSharesIssued,
          { s with
              properties := alIns s.properties property_id
                { prop with shares_available := av },
              ownership := alAdd s.ownership (property_id, dst) amount })
    else some (Except.error msgErrIssue, s)
  | none => some (Except.error msgErrIssue, s)

/-- `transfer_shares` with its subtraction site guarded by `checkedSub`. -/
def transfer_shares_checked (s : State) (property_id : Nat) (frm dst : String)
    (amount : Nat) : Option (Except String String × State) :=
  let own1 := alAdd s.ownership (property_id, frm) 0
  let fs := alGetD own1 (property_id, frm)
  if fs < amount then
    some (Except.error msgErrTransfer, { s with ownership := own1 })
  else
    match checkedSub fs amount with
    | none => none
    | some d =>
      some (Except.ok msgSharesTransferred,
        { s with ownership :=
            (alAdd (alIns own1 (property_id, frm) d) (property_id, dst) amount) })

/-- `buyOwnUpdate` with the seller-balance subtraction guarded. -/
def buyOwnUpdateChecked (own : List ((Nat × String) × Nat)) (property_id : Nat)
    (seller buyer : String) (amount : Nat) :
    Option (List ((Nat × String) × Nat)) :=
  let own1 := alAdd own (property_id, seller) 0
  let ss := alGetD own1 (property_id, seller)
  if ss < amount then some own1
  else
    match checkedSub ss amount with
    | none => none
    | some d =>
      some (alAdd (alIns own1 (property_id, seller) d) (property_id, buyer) amount)

/-- `buyListingUpdate` with the listing decrement guarded. -/
def buyListingUpdateChecked (l : Listing) (amount : Nat) (rest : List Listing) :
    Option (List Listing) :=
  if l.amount = amount then some rest
  else
    match checkedSub l.amount amount with
    | none => none
    | some la => some ({ l with amount := la } :: rest)

/-- `buyScan` with every subtraction site guarded; the outer `none` signals
an underflow, the inner `none` means no listing matched. -/
def buyScanChecked (own : List ((Nat × String) × Nat)) (property_id : Nat)
    (seller buyer : String) (amount : Nat) :
    List Listing → Option (Option (List ((Nat × String) × Nat) × List Listing))
  | [] => some none
  | l :: rest =>
    if listingMatches property_id seller amount l then
      match buyOwnUpdateChecked own property_id seller buyer amount with
      | none => none
      | some own2 =>
        match buyListingUpdateChecked l amount rest with
        | none => none
        | some mp2 => some (some (own2, mp2))
    else
      match buyScanChecked own property_id seller buyer amount rest with
      | none => none
      | some none => some none
      | some (some (own2, mp2)) => some (some (own2, l :: mp2))

/-- `buy_shares` with every subtraction site guarded. -/
def buy_shares_checked (s : State) (property_id : Nat) (seller buyer : String)
    (amount : Nat) : Option (Except String String × State) :=
  match buyScanChecked s.ownership property_id seller buyer amount
      s.marketplace with
  | none => none
  | some none => some (Except.error msgErrBuy, s)
  | some (some (own2, mp2)) =>
    some (Except.ok msgSharesBought,
      { s with ownership := own2, marketplace := mp2 })

/-- Conservation invariant, together with the bookkeeping facts needed to
carry it through every operation: registered ids stay below the id counter,
and unregistered properties carry no shares. -/
def Inv (s : State) : Prop :=
  (∀ pid prop, alGet s.properties pid = some prop →
    pid < s.next_property_id ∧
      prop.shares_available + ownSum s.ownership pid = prop.total_shares) ∧
  (∀ pid, alGet s.properties pid = none → ownSum s.ownership pid = 0)

def uAlice : String := "alice"
def uBob : String := "bob"
def nmVilla : String := "Villa"

/-- The Villa property once all 100 shares have been issued. -/
def villaIssued : Property :=
  { id := 1, name := nmVilla, total_shares := 100, shares_available := 0 }

/-- The Villa property after 60 of its 100 shares have been issued. -/
def villaAfter60 : Property :=
  { id := 1, name := nmVilla, total_shares := 100, shares_available := 40 }

/-- The fresh Villa property. -/
def villaFresh : Property :=
  { id := 1, name := nmVilla, total_shares := 100, shares_available := 100 }

/-- Spec trading scenario: alice owns 60, bob owns 40, alice lists 30 at 5. -/
def tradeState : State :=
  { properties := [(1, villaIssued)],
    ownership := [((1, uAlice), 60), ((1, uBob), 40)], next_property_id := 2,
    rental_income := [], unclaimed_income := [],
    marketplace := [{ property_id := 1, seller := uAlice, amount := 30,
                      price_per_share := 5 }] }

/-- Stale-listing scenario: alice owns only 10 but a listing offers 30. -/
def staleState : State :=
  { properties := [], ownership := [((1, uAlice), 10)], next_property_id := 1,
    rental_income := [], unclaimed_income := [],
    marketplace := [{ property_id := 1, seller := uAlice, amount := 30,
                      price_per_share := 5 }] }

/-- Self-transfer scenario: alice owns 5 shares. -/
def selfState : State :=
  { properties := [], ownership := [((1, uAlice), 5)], next_property_id := 1,
    rental_income := [], unclaimed_income := [], marketplace := [] }

/-- Issuance scenario: a fresh Villa with all 100 shares available. -/
def issueState : State :=
  { properties := [(1, villaFresh)], ownership := [], next_property_id := 2,
    rental_income := [], unclaimed_income := [], marketplace := [] }

/-- Claim scenario: alice has 60 of unclaimed income on property 1. -/
def claimState : State :=
  { properties := [], ownership := [], next_property_id := 1,
    rental_income := [], unclaimed_income := [((1, uAlice), 60)],
    marketplace := [] }

/-- Operation sequence: register the Villa, issue 60 shares to alice. -/
def demoOps : List Op :=
  [Op.register nmVilla 100, Op.issue 1 uAlice 60]

theorem alGet_alIns_self {κ α : Type} [DecidableEq κ] (m : List (κ × α))
    (k : κ) (v : α) : alGet (alIns m k v) k = some v := by
  induction m with
  | nil => simp [alIns, alGet]
  | cons e rest ih =>
    obtain ⟨k0, v0⟩ := e
    by_cases h : k0 = k
    · subst h; simp [alIns, alGet]
    · simp [alIns, alGet, h, ih]

theorem alGet_alIns_ne {κ α : Type} [DecidableEq κ] (m : List (κ × α))
    (k k2 : κ) (v : α) (h : k ≠ k2) :
    alGet (alIns m k v) k2 = alGet m k2 := by
  induction m with
  | nil => simp [alIns, alGet, h]
  | cons e rest ih =>
    obtain ⟨k0, v0⟩ := e
    by_cases h0 : k0 = k
    · subst h0; simp [alIns, alGet, h]
    · simp [alIns, alGet, h0, ih]

theorem alGetD_alIns_self {κ : Type} [DecidableEq κ] (m : List (κ × Nat))
    (k : κ) (v : Nat) : alGetD (alIns m k v) k = v := by
  simp [alGetD, alGet_alIns_self]

theorem alGetD_alIns_ne {κ : Type} [DecidableEq κ] (m : List (κ × Nat))
    (k k2 : κ) (v : Nat) (h : k ≠ k2) :
    alGetD (alIns m k v) k2 = alGetD m k2 := by
  simp [alGetD, alGet_alIns_ne m k k2 v h]

theorem alGet_alAdd_self {κ : Type} [DecidableEq κ] (m : List (κ × Nat))
    (k : κ) (v : Nat) : alGet (alAdd m k v) k = some (alGetD m k + v) := by
  induction m with
  | nil => simp [alAdd, alGet, alGetD]
  | cons e rest ih =>
    obtain ⟨k0, v0⟩ := e
    by_cases h : k0 = k
    · subst h; simp [alAdd, alGet, alGetD]
    · simp [alAdd, alGet, alGetD, h, ih]

theorem alGetD_alAdd {κ : Type} [DecidableEq κ] (m : List (κ × Nat))
    (k k2 : κ) (v : Nat) :
    alGetD (alAdd m k v) k2 = alGetD m k2 + (if k = k2 then v else 0) := by
  induction m with
  | nil =>
    by_cases h : k = k2 <;> simp [alAdd, alGet, alGetD, h]
  | cons e rest ih =>
    obtain ⟨k0, v0⟩ := e
    by_cases h0 : k0 = k
    · subst h0
      by_cases h2 : k0 = k2
      · subst h2; simp [alAdd, alGet, alGetD]
      · simp [alAdd, alGet, alGetD, h2]
    · by_cases h2 : k0 = k2
      · have hk : k ≠ k2 := fun hh => h0 (h2.trans hh.symm)
        subst h2; simp [alAdd, alGet, alGetD, h0, hk]
      · have ih2 : (alGet (alAdd rest k v) k2).getD 0 =
            (alGet rest k2).getD 0 + (if k = k2 then v else 0) := ih
        simp [alAdd, alGet, alGetD, h0, h2, ih2]

theorem alGet_eq_none {κ α : Type} [DecidableEq κ] (m : List (κ × α)) (k : κ)
    (h : k ∉ m.map Prod.fst) : alGet m k = none := by
  induction m with
  | nil => rfl
  | cons e rest ih =>
    obtain ⟨k0, v0⟩ := e
    simp only [List.map_cons, List.mem_cons] at h
    push_neg at h
    simp only [alGet]
    rw [if_neg (fun hh => h.1 hh.symm)]
    exact ih h.2

theorem alGet_alRemove_self {κ α : Type} [DecidableEq κ] (m : List (κ × α))
    (k : κ) (h : (m.map Prod.fst).Nodup) : alGet (alRemove m k) k = none := by
  induction m with
  | nil => rfl
  | cons e rest ih =>
    obtain ⟨k0, v0⟩ := e
    simp only [List.map_cons, List.nodup_cons] at h
    simp only [alRemove]
    by_cases h0 : k0 = k
    · subst h0
      rw [if_pos rfl]
      exact alGet_eq_none rest k0 h.1
    · rw [if_neg h0]
      simp only [alGet]
      rw [if_neg h0]
      exact ih h.2

theorem ownSum_alAdd (m : List ((Nat × String) × Nat)) (k : Nat × String)
    (v : Nat) (p : Nat) :
    ownSum (alAdd m k v) p = ownSum m p + (if k.1 = p then v else 0) := by
  induction m with
  | nil => simp [alAdd, ownSum]
  | cons e rest ih =>
    obtain ⟨k0, v0⟩ := e
    by_cases h : k0 = k
    · subst h
      simp only [alAdd, if_pos rfl, ownSum]
      split <;> omega
    · simp only [alAdd, if_neg h, ownSum, ih]
      omega

theorem ownSum_alIns (m : List ((Nat × String) × Nat)) (k : Nat × String)
    (v w : Nat) (p : Nat) (h : alGet m k = some w) :
    ownSum (alIns m k v) p + (if k.1 = p then w else 0) =
      ownSum m p + (if k.1 = p then v else 0) := by
  induction m with
  | nil => simp [alGet] at h
  | cons e rest ih =>
    obtain ⟨k0, v0⟩ := e
    by_cases h0 : k0 = k
    · subst h0
      simp [alGet] at h
      subst h
      simp only [alIns, if_pos rfl, ownSum]
      split <;> omega
    · simp only [alGet, if_neg h0] at h
      simp only [alIns, if_neg h0, ownSum]
      have := ih h
      omega

theorem ownSum_move (m : List ((Nat × String) × Nat)) (pid : Nat)
    (u1 u2 : String) (a w p : Nat) (hw : alGet m (pid, u1) = some w)
    (ha : a ≤ w) :
    ownSum (alAdd (alIns m (pid, u1) (w - a)) (pid, u2) a) p = ownSum m p := by
  have h1 := ownSum_alAdd (alIns m (pid, u1) (w - a)) (pid, u2) a p
  have h2 := ownSum_alIns m (pid, u1) (w - a) w p hw
  by_cases hp : pid = p
  · subst hp
    simp at h1 h2
    omega
  · simp [hp] at h1 h2
    omega

theorem buyScan_eq_none_iff (own : List ((Nat × String) × Nat))
    (property_id : Nat) (seller buyer : String) (amount : Nat)
    (mp : List Listing) :
    buyScan own property_id seller buyer amount mp = none ↔
      ∀ l ∈ mp, listingMatches property_id seller amount l = false := by
  induction mp with
  | nil => simp [buyScan]
  | cons l rest ih =>
    cases hl : listingMatches property_id seller amount l with
    | true =>
      simp only [buyScan]
      rw [if_pos hl]
      constructor
      · intro h
        exact absurd h (by simp)
      · intro h
        have h2 := h l (List.mem_cons_self l rest)
        rw [hl] at h2
        exact absurd h2 (by simp)
    | false =>
      simp only [buyScan]
      rw [if_neg (by rw [hl]; decide)]
      cases hr : buyScan own property_id seller buyer amount rest with
      | none =>
        constructor
        · intro _ l2 hl2
          rcases List.mem_cons.mp hl2 with h | h
          · rw [h]
            exact hl
          · exact (ih.mp hr) l2 h
        · intro _
          rfl
      | some pr =>
        obtain ⟨o2, m2⟩ := pr
        constructor
        · intro h
          exact absurd h (by simp)
        · intro h
          have hnone : buyScan own property_id seller buyer amount rest = none :=
            ih.mpr (fun l2 h2 => h l2 (List.mem_cons_of_mem l h2))
          rw [hr] at hnone
          exact absurd hnone (by simp)

theorem buyScan_append (own : List ((Nat × String) × Nat)) (property_id : Nat)
    (seller buyer : String) (amount : Nat) (pre : List Listing) (l : Listing)
    (post : List Listing)
    (hpre : ∀ l2 ∈ pre, listingMatches property_id seller amount l2 = false)
    (hl : listingMatches property_id seller amount l = true) :
    buyScan own property_id seller buyer amount (pre ++ l :: post) =
      some (buyOwnUpdate own property_id seller buyer amount,
            pre ++ buyListingUpdate l amount post) := by
  induction pre with
  | nil =>
    simp only [List.nil_append, buyScan]
    rw [if_pos hl]
  | cons l0 pre2 ih =>
    have h0 := hpre l0 (List.mem_cons_self l0 pre2)
    simp only [List.cons_append, buyScan, List.append_eq]
    rw [if_neg (by rw [h0]; decide)]
    rw [ih (fun l2 h2 => hpre l2 (List.mem_cons_of_mem l0 h2))]

theorem buy_shares_ok_iff (s : State) (property_id : Nat)
    (seller buyer : String) (amount : Nat) :
    (buy_shares s property_id seller buyer amount).1 =
        Except.ok msgSharesBought ↔
      ∃ l ∈ s.marketplace, listingMatches property_id seller amount l = true := by
  unfold buy_shares
  cases hr : buyScan s.ownership property_id seller buyer amount
      s.marketplace with
  | none =>
    constructor
    · intro h
      exact absurd h (by simp)
    · intro h
      obtain ⟨l, hmem, hmatch⟩ := h
      have h2 := (buyScan_eq_none_iff s.ownership property_id seller buyer
        amount s.marketplace).mp hr l hmem
      rw [hmatch] at h2
      exact absurd h2 (by simp)
  | some pr =>
    obtain ⟨o2, m2⟩ := pr
    constructor
    · intro _
      by_contra hno
      push_neg at hno
      simp only [Bool.not_eq_true] at hno
      have hnone := (buyScan_eq_none_iff s.ownership property_id seller buyer
        amount s.marketplace).mpr hno
      rw [hr] at hnone
      exact absurd hnone (by simp)
    · intro _
      rfl

theorem inv_update (s1 s2 : State) (h : Inv s1)
    (hp : s2.properties = s1.properties)
    (hn : s2.next_property_id = s1.next_property_id)
    (hs : ∀ p, ownSum s2.ownership p = ownSum s1.ownership p) : Inv s2 := by
  constructor
  · intro pid prop hget
    rw [hp] at hget
    rw [hn, hs]
    exact h.1 pid prop hget
  · intro pid hget
    rw [hp] at hget
    rw [hs]
    exact h.2 pid hget

theorem inv_register (s : State) (name : String) (total : Nat) (h : Inv s) :
    Inv (register_property s name total).2 := by
  have hfresh : alGet s.properties s.next_property_id = none := by
    cases hq : alGet s.properties s.next_property_id with
    | none => rfl
    | some prop =>
      exact absurd (h.1 s.next_property_id prop hq).1 (lt_irrefl _)
  constructor
  · intro pid prop hget
    have hget2 : alGet (alIns s.properties s.next_property_id
        { id := s.next_property_id, name := name, total_shares := total,
          shares_available := total }) pid = some prop := hget
    show pid < s.next_property_id + 1 ∧
      prop.shares_available + ownSum s.ownership pid = prop.total_shares
    by_cases hp : s.next_property_id = pid
    · subst hp
      rw [alGet_alIns_self] at hget2
      cases hget2
      have h0 := h.2 s.next_property_id hfresh
      constructor
      · exact Nat.lt_succ_self _
      · simp [h0]
    · rw [alGet_alIns_ne _ _ _ _ hp] at hget2
      have h1 := h.1 pid prop hget2
      exact ⟨Nat.lt_succ_of_lt h1.1, h1.2⟩
  · intro pid hget
    have hget2 : alGet (alIns s.properties s.next_property_id
        { id := s.next_property_id, name := name, total_shares := total,
          shares_available := total }) pid = none := hget
    show ownSum s.ownership pid = 0
    by_cases hp : s.next_property_id = pid
    · subst hp
      rw [alGet_alIns_self] at hget2
      cases hget2
    · rw [alGet_alIns_ne _ _ _ _ hp] at hget2
      exact h.2 pid hget2

theorem ownSum_alAdd2 (m : List ((Nat × String) × Nat)) (q : Nat) (u : String)
    (v p : Nat) :
    ownSum (alAdd m (q, u) v) p = ownSum m p + (if q = p then v else 0) := by
  have h := ownSum_alAdd m (q, u) v p
  simpa using h

theorem alGet_or_insert {κ : Type} [DecidableEq κ] (m : List (κ × Nat))
    (k : κ) : alGet (alAdd m k 0) k = some (alGetD (alAdd m k 0) k) := by
  rw [alGet_alAdd_self, alGetD_alAdd]
  simp

theorem inv_issue (s : State) (pid : Nat) (dst : String) (a : Nat)
    (h : Inv s) : Inv (issue_shares s pid dst a).2 := by
  simp only [issue_shares]
  split
  next prop hq =>
    by_cases hle : a ≤ prop.shares_available
    · rw [if_pos hle]
      have h1 := h.1 pid prop hq
      constructor
      · intro pid2 prop2 hget
        have hget2 : alGet (alIns s.properties pid
            { prop with shares_available := prop.shares_available - a }) pid2 =
            some prop2 := hget
        show pid2 < s.next_property_id ∧
          prop2.shares_available + ownSum (alAdd s.ownership (pid, dst) a) pid2 =
            prop2.total_shares
        rw [ownSum_alAdd2]
        by_cases hp : pid = pid2
        · subst hp
          rw [alGet_alIns_self] at hget2
          cases hget2
          refine ⟨h1.1, ?_⟩
          show prop.shares_available - a +
              (ownSum s.ownership pid + (if pid = pid then a else 0)) =
            prop.total_shares
          rw [if_pos rfl]
          have h2 := h1.2
          omega
        · rw [alGet_alIns_ne _ _ _ _ hp] at hget2
          have h2 := h.1 pid2 prop2 hget2
          refine ⟨h2.1, ?_⟩
          rw [if_neg hp]
          have h3 := h2.2
          omega
      · intro pid2 hget
        have hget2 : alGet (alIns s.properties pid
            { prop with shares_available := prop.shares_available - a }) pid2 =
            none := hget
        show ownSum (alAdd s.ownership (pid, dst) a) pid2 = 0
        by_cases hp : pid = pid2
        · subst hp
          rw [alGet_alIns_self] at hget2
          cases hget2
        · rw [alGet_alIns_ne _ _ _ _ hp] at hget2
          rw [ownSum_alAdd2, if_neg hp]
          have h2 := h.2 pid2 hget2
          omega
    · rw [if_neg hle]
      exact h
  next hq => exact h

theorem inv_transfer (s : State) (pid : Nat) (frm dst : String) (a : Nat)
    (h : Inv s) : Inv (transfer_shares s pid frm dst a).2 := by
  simp only [transfer_shares]
  by_cases hlt : alGetD (alAdd s.ownership (pid, frm) 0) (pid, frm) < a
  · rw [if_pos hlt]
    refine inv_update s _ h rfl rfl ?_
    intro p
    show ownSum (alAdd s.ownership (pid, frm) 0) p = ownSum s.ownership p
    rw [ownSum_alAdd2]
    simp
  · rw [if_neg hlt]
    refine inv_update s _ h rfl rfl ?_
    intro p
    have hw := alGet_or_insert s.ownership (pid, frm)
    show ownSum (alAdd (alIns (alAdd s.ownership (pid, frm) 0) (pid, frm)
        (alGetD (alAdd s.ownership (pid, frm) 0) (pid, frm) - a))
        (pid, dst) a) p = ownSum s.ownership p
    rw [ownSum_move (alAdd s.ownership (pid, frm) 0) pid frm dst a
      (alGetD (alAdd s.ownership (pid, frm) 0) (pid, frm)) p hw
      (Nat.le_of_not_lt hlt)]
    rw [ownSum_alAdd2]
    simp

theorem ownSum_buyOwnUpdate (own : List ((Nat × String) × Nat)) (pid : Nat)
    (seller buyer : String) (a p : Nat) :
    ownSum (buyOwnUpdate own pid seller buyer a) p = ownSum own p := by
  simp only [buyOwnUpdate]
  by_cases hlt : alGetD (alAdd own (pid, seller) 0) (pid, seller) < a
  · rw [if_pos hlt, ownSum_alAdd2]
    simp
  · rw [if_neg hlt]
    have hw := alGet_or_insert own (pid, seller)
    rw [ownSum_move (alAdd own (pid, seller) 0) pid seller buyer a
      (alGetD (alAdd own (pid, seller) 0) (pid, seller)) p hw
      (Nat.le_of_not_lt hlt)]
    rw [ownSum_alAdd2]
    simp

theorem buyScan_some_own (own : List ((Nat × String) × Nat)) (pid : Nat)
    (seller buyer : String) (a : Nat) (mp : List Listing)
    (o2 : List ((Nat × String) × Nat)) (m2 : List Listing)
    (h : buyScan own pid seller buyer a mp = some (o2, m2)) :
    o2 = buyOwnUpdate own pid seller buyer a := by
  induction mp generalizing o2 m2 with
  | nil => cases h
  | cons l rest ih =>
    simp only [buyScan] at h
    by_cases hl : listingMatches pid seller a l = true
    · rw [if_pos hl] at h
      cases h
      rfl
    · rw [if_neg hl] at h
      cases hr : buyScan own pid seller buyer a rest with
      | none => rw [hr] at h; cases h
      | some pr =>
        obtain ⟨o3, m3⟩ := pr
        rw [hr] at h
        cases h
        exact ih _ _ hr

theorem inv_buy (s : State) (pid : Nat) (seller buyer : String) (a : Nat)
    (h : Inv s) : Inv (buy_shares s pid seller buyer a).2 := by
  simp only [buy_shares]
  cases hr : buyScan s.ownership pid seller buyer a s.marketplace with
  | none => exact h
  | some pr =>
    obtain ⟨own2, mp2⟩ := pr
    have ho := buyScan_some_own s.ownership pid seller buyer a s.marketplace
      own2 mp2 hr
    subst ho
    exact inv_update s _ h rfl rfl
      (fun p => ownSum_buyOwnUpdate s.ownership pid seller buyer a p)

theorem inv_listSale (s : State) (pid : Nat) (seller : String)
    (a price : Nat) (h : Inv s) : Inv (list_shares_for_sale s pid seller a price).2 := by
  simp only [list_shares_for_sale]
  by_cases hlt : alGetD s.ownership (pid, seller) < a
  · rw [if_pos hlt]
    exact h
  · rw [if_neg hlt]
    exact inv_update s _ h rfl rfl (fun p => rfl)

theorem inv_deposit (s : State) (pid a : Nat) (h : Inv s) :
    Inv (deposit_rental_income s pid a).2 := by
  simp only [deposit_rental_income]
  by_cases h0 : propTotalShares s pid = 0
  · rw [if_pos h0]
    exact inv_update s _ h rfl rfl (fun p => rfl)
  · rw [if_neg h0]
    exact inv_update s _ h rfl rfl (fun p => rfl)

theorem inv_claim (s : State) (pid : Nat) (u : String) (h : Inv s) :
    Inv (claim_income s pid u).2 :=
  inv_update s _ h rfl rfl (fun _ => rfl)

theorem inv_step (s : State) (op : Op) (h : Inv s) : Inv (step s op) := by
  cases op with
  | register name total => exact inv_register s name total h
  | issue pid dst a => exact inv_issue s pid dst a h
  | transfer pid frm dst a => exact inv_transfer s pid frm dst a h
  | listSale pid seller a price => exact inv_listSale s pid seller a price h
  | buy pid seller buyer a => exact inv_buy s pid seller buyer a h
  | deposit pid a => exact inv_deposit s pid a h
  | claim pid u => exact inv_claim s pid u h

theorem inv_initState : Inv initState := by
  constructor
  · intro pid prop hget
    simp [initState, alGet] at hget
  · intro pid hget
    rfl

theorem inv_foldl (ops : List Op) : ∀ s, Inv s → Inv (ops.foldl step s) := by
  induction ops with
  | nil => intro s h; exact h
  | cons op rest ih =>
    intro s h
    exact ih (step s op) (inv_step s op h)

theorem inv_run (ops : List Op) : Inv (run ops) :=
  inv_foldl ops initState inv_initState

theorem alGetD_or_insert {κ : Type} [DecidableEq κ] (m : List (κ × Nat))
    (k : κ) : alGetD (alAdd m k 0) k = alGetD m k := by
  rw [alGetD_alAdd]
  simp

theorem issue_checked_eq (s : State) (pid : Nat) (dst : String) (a : Nat) :
    issue_shares_checked s pid dst a = some (issue_shares s pid dst a) := by
  simp only [issue_shares_checked, issue_shares]
  split
  next prop hq =>
    by_cases hle : a ≤ prop.shares_available
    · simp [hle, checkedSub]
    · simp [hle]
  next hq => rfl

theorem transfer_checked_eq (s : State) (pid : Nat) (frm dst : String)
    (a : Nat) :
    transfer_shares_checked s pid frm dst a =
      some (transfer_shares s pid frm dst a) := by
  simp only [transfer_shares_checked, transfer_shares]
  by_cases hlt : alGetD (alAdd s.ownership (pid, frm) 0) (pid, frm) < a
  · simp [hlt]
  · have hle := Nat.le_of_not_lt hlt
    simp [hlt, checkedSub, hle]

theorem buyOwnUpdateChecked_eq (own : List ((Nat × String) × Nat)) (pid : Nat)
    (seller buyer : String) (a : Nat) :
    buyOwnUpdateChecked own pid seller buyer a =
      some (buyOwnUpdate own pid seller buyer a) := by
  simp only [buyOwnUpdateChecked, buyOwnUpdate]
  by_cases hlt : alGetD (alAdd own (pid, seller) 0) (pid, seller) < a
  · simp [hlt]
  · have hle := Nat.le_of_not_lt hlt
    simp [hlt, checkedSub, hle]

theorem listingMatches_le (pid : Nat) (seller : String) (a : Nat) (l : Listing)
    (h : listingMatches pid seller a l = true) : a ≤ l.amount := by
  simp [listingMatches] at h
  exact h.2

theorem buyListingUpdateChecked_eq (l : Listing) (a : Nat)
    (rest : List Listing) (hle : a ≤ l.amount) :
    buyListingUpdateChecked l a rest = some (buyListingUpdate l a rest) := by
  simp only [buyListingUpdateChecked, buyListingUpdate]
  by_cases heq : l.amount = a
  · simp [heq]
  · simp [heq, checkedSub, hle]

theorem buyScanChecked_eq (own : List ((Nat × String) × Nat)) (pid : Nat)
    (seller buyer : String) (a : Nat) (mp : List Listing) :
    buyScanChecked own pid seller buyer a mp =
      some (buyScan own pid seller buyer a mp) := by
  induction mp with
  | nil => rfl
  | cons l rest ih =>
    simp only [buyScanChecked, buyScan]
    by_cases hl : listingMatches pid seller a l = true
    · rw [if_pos hl, if_pos hl, buyOwnUpdateChecked_eq,
        buyListingUpdateChecked_eq l a rest (listingMatches_le pid seller a l hl)]
    · rw [if_neg hl, if_neg hl, ih]
      cases buyScan own pid seller buyer a rest with
      | none => rfl
      | some pr =>
        obtain ⟨o2, m2⟩ := pr
        rfl

theorem buy_checked_eq (s : State) (pid : Nat) (seller buyer : String)
    (a : Nat) :
    buy_shares_checked s pid seller buyer a =
      some (buy_shares s pid seller buyer a) := by
  simp only [buy_shares_checked, buy_shares]
  rw [buyScanChecked_eq]
  cases buyScan s.ownership pid seller buyer a s.marketplace with
  | none => rfl
  | some pr =>
    obtain ⟨o2, m2⟩ := pr
    rfl

theorem transfer_err_iff (s : State) (pid : Nat) (frm dst : String)
    (a : Nat) :
    (transfer_shares s pid frm dst a).1 = Except.error msgErrTransfer ↔
      alGetD s.ownership (pid, frm) < a := by
  simp only [transfer_shares, alGetD_or_insert]
  by_cases hlt : alGetD s.ownership (pid, frm) < a
  · simp [hlt]
  · simp [hlt, msgSharesTransferred, msgErrTransfer]

/-- Claim C1 (code-bug evidence): at the failing input, depositing 50 on the
unregistered property 1 in the initial state returns the PropertyNotFound
error, yet RentalIncomeTotal(1) is still increased from 0 to 50, because the
source adds to RENTAL_INCOME before validating the property.  This
contradicts the all-or-nothing claim for the error path. -/
theorem claim1_deposit_error_mutates_income :
    (deposit_rental_income initState 1 50).1 = Except.error msgErrDeposit ∧
    alGetD (deposit_rental_income initState 1 50).2.rental_income 1 = 50 ∧
    alGetD initState.rental_income 1 = 0 :=
  ⟨rfl, rfl, rfl⟩

/-- Claim C3: in every state reachable from the empty initial state by any
sequence of the public operations, every registered property satisfies
sharesAvailable plus the sum of all ownership balances equals totalShares. -/
theorem claim3_conservation (ops : List Op) (pid : Nat) (prop : Property)
    (h : get_property (run ops) pid = some prop) :
    prop.shares_available + ownSum (run ops).ownership pid =
      prop.total_shares :=
  ((inv_run ops).1 pid prop h).2

/-- Witness for C3: register the Villa with 100 shares, issue 60 to alice;
then 40 available plus 60 owned equals 100. -/
theorem claim3_conservation_witness :
    (40 : Nat) + ownSum (run demoOps).ownership 1 = 100 :=
  claim3_conservation demoOps 1 villaAfter60 (by decide)

/-- Claim C4: issueShares succeeds exactly when the property is registered
with sharesAvailable at least the amount; on success availability drops by
exactly the amount and the recipient's balance rises by exactly the amount;
on failure the InsufficientSharesOrNotFound error is returned and the state
is unchanged. -/
theorem claim4_issue_shares_spec (s : State) (pid : Nat) (dst : String)
    (a : Nat) :
    ((issue_shares s pid dst a).1 = Except.ok msgSharesIssued ↔
      ∃ p, get_property s pid = some p ∧ a ≤ p.shares_available) ∧
    (∀ p, get_property s pid = some p → a ≤ p.shares_available →
      get_property (issue_shares s pid dst a).2 pid =
        some { p with shares_available := p.shares_available - a } ∧
      get_ownership (issue_shares s pid dst a).2 pid dst =
        get_ownership s pid dst + a) ∧
    ((issue_shares s pid dst a).1 ≠ Except.ok msgSharesIssued →
      issue_shares s pid dst a = (Except.error msgErrIssue, s)) := by
  simp only [issue_shares, get_property, get_ownership]
  split
  next prop hq =>
    by_cases hle : a ≤ prop.shares_available
    · rw [if_pos hle]
      refine ⟨?_, ?_, ?_⟩
      · constructor
        · intro _
          exact ⟨prop, hq, hle⟩
        · intro _
          rfl
      · intro p hp hle2
        rw [hq] at hp
        cases hp
        constructor
        · show alGet (alIns s.properties pid
              { prop with shares_available := prop.shares_available - a })
              pid =
            some { prop with shares_available := prop.shares_available - a }
          exact alGet_alIns_self _ _ _
        · show alGetD (alAdd s.ownership (pid, dst) a) (pid, dst) =
            alGetD s.ownership (pid, dst) + a
          rw [alGetD_alAdd, if_pos rfl]
      · intro h
        exact absurd rfl h
    · rw [if_neg hle]
      refine ⟨?_, ?_, ?_⟩
      · constructor
        · intro h
          exact absurd h (by simp)
        · intro h
          obtain ⟨p, hp, hle2⟩ := h
          rw [hq] at hp
          cases hp
          exact absurd hle2 hle
      · intro p hp hle2
        rw [hq] at hp
        cases hp
        exact absurd hle2 hle
      · intro _
        rfl
  next hq =>
    refine ⟨?_, ?_, ?_⟩
    · constructor
      · intro h
        exact absurd h (by simp)
      · intro h
        obtain ⟨p, hp, _⟩ := h
        rw [hq] at hp
        cases hp
    · intro p hp
      rw [hq] at hp
      cases hp
    · intro _
      rfl

/-- Witness for C4: issuing 60 of the fresh Villa's 100 shares to alice
leaves 40 available and credits alice with 60. -/
theorem claim4_issue_shares_spec_witness :
    get_property (issue_shares issueState 1 uAlice 60).2 1 =
        some { villaFresh with shares_available := 40 } ∧
    get_ownership (issue_shares issueState 1 uAlice 60).2 1 uAlice = 60 := by
  have h := (claim4_issue_shares_spec issueState 1 uAlice 60).2.1 villaFresh
    (by decide) (by decide)
  exact ⟨h.1, h.2⟩

theorem alGetD_alAdd_self {κ : Type} [DecidableEq κ] (m : List (κ × Nat))
    (k : κ) (v : Nat) : alGetD (alAdd m k v) k = alGetD m k + v := by
  rw [alGetD_alAdd, if_pos rfl]

theorem alGetD_alAdd_ne {κ : Type} [DecidableEq κ] (m : List (κ × Nat))
    (k k2 : κ) (v : Nat) (h : k ≠ k2) :
    alGetD (alAdd m k v) k2 = alGetD m k2 := by
  rw [alGetD_alAdd, if_neg h, Nat.add_zero]

/-- Claim C5 counterexample: with alice owning 5 shares of property 1, the
self-transfer of 3 shares (from = to = alice) succeeds yet leaves her
balance at 5; the claim as stated requires the balance to decrease by
exactly 3, so it fails at this input. -/
theorem claim5_counterexample :
    (transfer_shares selfState 1 uAlice uAlice 3).1 =
        Except.ok msgSharesTransferred ∧
    get_ownership (transfer_shares selfState 1 uAlice uAlice 3).2 1 uAlice =
      5 := by
  exact ⟨rfl, rfl⟩

/-- Claim C5 (amended): transferShares succeeds iff ownership(P, from) is at
least the amount; it never touches the property table (so sharesAvailable
is unchanged); on success with from different from to, the from balance
drops by exactly the amount, the to balance rises by exactly the amount and
all other balances are unchanged; on success with from = to every balance is
unchanged; on failure it returns InsufficientBalance and changes no
balance. -/
theorem claim5_transfer_spec (s : State) (pid : Nat) (frm dst : String)
    (a : Nat) :
    ((transfer_shares s pid frm dst a).1 = Except.ok msgSharesTransferred ↔
      a ≤ get_ownership s pid frm) ∧
    (transfer_shares s pid frm dst a).2.properties = s.properties ∧
    (a ≤ get_ownership s pid frm → frm ≠ dst →
      get_ownership (transfer_shares s pid frm dst a).2 pid frm =
          get_ownership s pid frm - a ∧
      get_ownership (transfer_shares s pid frm dst a).2 pid dst =
          get_ownership s pid dst + a ∧
      (∀ p u, (p, u) ≠ (pid, frm) → (p, u) ≠ (pid, dst) →
        get_ownership (transfer_shares s pid frm dst a).2 p u =
          get_ownership s p u)) ∧
    (a ≤ get_ownership s pid frm → frm = dst →
      ∀ p u, get_ownership (transfer_shares s pid frm dst a).2 p u =
        get_ownership s p u) ∧
    (get_ownership s pid frm < a →
      (transfer_shares s pid frm dst a).1 = Except.error msgErrTransfer ∧
      ∀ p u, get_ownership (transfer_shares s pid frm dst a).2 p u =
        get_ownership s p u) := by
  simp only [transfer_shares, get_ownership, alGetD_or_insert]
  by_cases hlt : alGetD s.ownership (pid, frm) < a
  · rw [if_pos hlt]
    refine ⟨?_, rfl, ?_, ?_, ?_⟩
    · constructor
      · intro h
        exact absurd h (by simp)
      · intro h
        omega
    · intro h
      omega
    · intro h
      omega
    · intro _
      refine ⟨rfl, ?_⟩
      intro p u
      show alGetD (alAdd s.ownership (pid, frm) 0) (p, u) =
        alGetD s.ownership (p, u)
      rw [alGetD_alAdd]
      simp
  · rw [if_neg hlt]
    have hle := Nat.le_of_not_lt hlt
    refine ⟨?_, rfl, ?_, ?_, ?_⟩
    · exact ⟨fun _ => hle, fun _ => rfl⟩
    · intro _ hne
      have hne1 : ((pid, dst) : Nat × String) ≠ (pid, frm) :=
        fun hh => hne (congrArg Prod.snd hh).symm
      have hne2 : ((pid, frm) : Nat × String) ≠ (pid, dst) :=
        fun hh => hne (congrArg Prod.snd hh)
      refine ⟨?_, ?_, ?_⟩
      · show alGetD (alAdd (alIns (alAdd s.ownership (pid, frm) 0) (pid, frm)
            (alGetD s.ownership (pid, frm) - a)) (pid, dst) a) (pid, frm) =
          alGetD s.ownership (pid, frm) - a
        rw [alGetD_alAdd_ne _ _ _ _ hne1, alGetD_alIns_self]
      · show alGetD (alAdd (alIns (alAdd s.ownership (pid, frm) 0) (pid, frm)
            (alGetD s.ownership (pid, frm) - a)) (pid, dst) a) (pid, dst) =
          alGetD s.ownership (pid, dst) + a
        rw [alGetD_alAdd_self, alGetD_alIns_ne _ _ _ _ hne2,
          alGetD_alAdd_ne _ _ _ _ hne2]
      · intro p u hpu1 hpu2
        show alGetD (alAdd (alIns (alAdd s.ownership (pid, frm) 0) (pid, frm)
            (alGetD s.ownership (pid, frm) - a)) (pid, dst) a) (p, u) =
          alGetD s.ownership (p, u)
        rw [alGetD_alAdd_ne _ _ _ _ (Ne.symm hpu2),
          alGetD_alIns_ne _ _ _ _ (Ne.symm hpu1),
          alGetD_alAdd_ne _ _ _ _ (Ne.symm hpu1)]
    · intro _ heq
      subst heq
      intro p u
      show alGetD (alAdd (alIns (alAdd s.ownership (pid, frm) 0) (pid, frm)
          (alGetD s.ownership (pid, frm) - a)) (pid, frm) a) (p, u) =
        alGetD s.ownership (p, u)
      by_cases hpu : ((pid, frm) : Nat × String) = (p, u)
      · rw [← hpu]
        rw [alGetD_alAdd_self, alGetD_alIns_self]
        omega
      · rw [alGetD_alAdd_ne _ _ _ _ hpu, alGetD_alIns_ne _ _ _ _ hpu,
          alGetD_alAdd_ne _ _ _ _ hpu]
    · intro h
      omega

/-- Witness for C5 (amended): alice owns 5 and transfers 3 to bob; her
balance becomes 2 and bob's becomes 3. -/
theorem claim5_transfer_spec_witness :
    get_ownership (transfer_shares selfState 1 uAlice uBob 3).2 1 uAlice = 2 ∧
    get_ownership (transfer_shares selfState 1 uAlice uBob 3).2 1 uBob = 3 := by
  have h := (claim5_transfer_spec selfState 1 uAlice uBob 3).2.2.1
    (by decide) (by decide)
  exact ⟨h.1, h.2.1⟩

/-- Claim C6: when no marketplace listing matches the given property and
seller with a listed amount at least the request, buyShares returns the
NoMatchingListing error and the whole state, balances and listings included,
is unchanged. -/
theorem claim6_buy_no_match (s : State) (pid : Nat) (seller buyer : String)
    (a : Nat)
    (h : ∀ l ∈ s.marketplace, listingMatches pid seller a l = false) :
    buy_shares s pid seller buyer a = (Except.error msgErrBuy, s) := by
  have hnone := (buyScan_eq_none_iff s.ownership pid seller buyer a
    s.marketplace).mpr h
  simp only [buy_shares, hnone]

/-- Witness for C6: requesting 40 when the only listing offers 30 returns
the error and leaves the state untouched. -/
theorem claim6_buy_no_match_witness :
    buy_shares tradeState 1 uAlice uBob 40 =
      (Except.error msgErrBuy, tradeState) :=
  claim6_buy_no_match tradeState 1 uAlice uBob 40 (by decide)

/-- Claim C8: claimIncome is total (it never fails): it returns the current
unclaimed income (0 when absent) and zeroes the entry, so an immediate
second claim returns 0 and getUnclaimedIncome right after a claim returns
0.  Stated under key-uniqueness of the unclaimed-income map (a HashMap
property). -/
theorem claim8_claim_income_spec (s : State) (pid : Nat) (u : String)
    (hnd : (s.unclaimed_income.map Prod.fst).Nodup) :
    (claim_income s pid u).1 = get_unclaimed_income s pid u ∧
    get_unclaimed_income (claim_income s pid u).2 pid u = 0 ∧
    (claim_income (claim_income s pid u).2 pid u).1 = 0 := by
  refine ⟨rfl, ?_, ?_⟩
  · show alGetD (alRemove s.unclaimed_income (pid, u)) (pid, u) = 0
    simp only [alGetD, alGet_alRemove_self s.unclaimed_income (pid, u) hnd,
      Option.getD_none]
  · show alGetD (alRemove s.unclaimed_income (pid, u)) (pid, u) = 0
    simp only [alGetD, alGet_alRemove_self s.unclaimed_income (pid, u) hnd,
      Option.getD_none]

/-- Witness for C8: alice claims her 60, after which both the query and a
second claim yield 0. -/
theorem claim8_claim_income_spec_witness :
    (claim_income claimState 1 uAlice).1 = 60 ∧
    get_unclaimed_income (claim_income claimState 1 uAlice).2 1 uAlice = 0 ∧
    (claim_income (claim_income claimState 1 uAlice).2 1 uAlice).1 = 0 := by
  have h := claim8_claim_income_spec claimState 1 uAlice (by decide)
  exact ⟨h.1, h.2.1, h.2.2⟩

/-- Claim C2 counterexample: in the stale-listing state alice owns 10 yet
her listing offers 30; buying 20 returns success while bob receives nothing
and alice keeps her 10 shares (the listing is still decremented).  The claim
as stated requires the balances to move on every success, so it fails at
this input. -/
theorem claim2_counterexample :
    (buy_shares staleState 1 uAlice uBob 20).1 = Except.ok msgSharesBought ∧
    get_ownership (buy_shares staleState 1 uAlice uBob 20).2 1 uBob = 0 ∧
    get_ownership (buy_shares staleState 1 uAlice uBob 20).2 1 uAlice =
      10 := by
  exact ⟨rfl, rfl, rfl⟩

/-- Claim C2 (amended): buyShares settles against the first listing
matching (propertyId, seller) with a listed amount covering the request;
whenever, in addition, the seller's ledger balance covers the request and
the buyer differs from the seller, the call succeeds, the seller's balance
decreases by exactly the amount, the buyer's increases by exactly the
amount, and the matched listing is removed when fully consumed or has its
amount decremented otherwise. -/
theorem claim2_buy_spec (s : State) (pid : Nat) (seller buyer : String)
    (a : Nat) (pre post : List Listing) (l : Listing)
    (hmp : s.marketplace = pre ++ l :: post)
    (hpre : ∀ l2 ∈ pre, listingMatches pid seller a l2 = false)
    (hl : listingMatches pid seller a l = true)
    (hbal : a ≤ get_ownership s pid seller)
    (hne : seller ≠ buyer) :
    (buy_shares s pid seller buyer a).1 = Except.ok msgSharesBought ∧
    get_ownership (buy_shares s pid seller buyer a).2 pid seller =
      get_ownership s pid seller - a ∧
    get_ownership (buy_shares s pid seller buyer a).2 pid buyer =
      get_ownership s pid buyer + a ∧
    (buy_shares s pid seller buyer a).2.marketplace =
      pre ++ (if l.amount = a then post
        else { l with amount := l.amount - a } :: post) := by
  simp only [get_ownership] at hbal
  have hne1 : ((pid, buyer) : Nat × String) ≠ (pid, seller) :=
    fun hh => hne (congrArg Prod.snd hh).symm
  have hne2 : ((pid, seller) : Nat × String) ≠ (pid, buyer) :=
    fun hh => hne (congrArg Prod.snd hh)
  have hscan := buyScan_append s.ownership pid seller buyer a pre l post
    hpre hl
  simp only [buy_shares, hmp, hscan, get_ownership]
  refine ⟨trivial, ?_, ?_, rfl⟩
  · show alGetD (buyOwnUpdate s.ownership pid seller buyer a) (pid, seller) =
      alGetD s.ownership (pid, seller) - a
    simp only [buyOwnUpdate, alGetD_or_insert]
    rw [if_neg (by omega)]
    rw [alGetD_alAdd_ne _ _ _ _ hne1, alGetD_alIns_self]
  · show alGetD (buyOwnUpdate s.ownership pid seller buyer a) (pid, buyer) =
      alGetD s.ownership (pid, buyer) + a
    simp only [buyOwnUpdate, alGetD_or_insert]
    rw [if_neg (by omega)]
    rw [alGetD_alAdd_self, alGetD_alIns_ne _ _ _ _ hne2,
      alGetD_alAdd_ne _ _ _ _ hne2]

/-- Witness for C2 (amended): the spec trading scenario - alice owns 60 and
lists 30 at price 5, bob buys 20: success, alice 60 to 40, bob 40 to 60,
listing amount 30 to 10. -/
theorem claim2_buy_spec_witness :
    (buy_shares tradeState 1 uAlice uBob 20).1 = Except.ok msgSharesBought ∧
    get_ownership (buy_shares tradeState 1 uAlice uBob 20).2 1 uAlice = 40 ∧
    get_ownership (buy_shares tradeState 1 uAlice uBob 20).2 1 uBob = 60 := by
  have h := claim2_buy_spec tradeState 1 uAlice uBob 20 [] []
    { property_id := 1, seller := uAlice, amount := 30, price_per_share := 5 }
    (by decide) (by decide) (by decide) (by decide) (by decide)
  exact ⟨h.1, h.2.1.trans (by decide), h.2.2.1.trans (by decide)⟩

/-- Claim C9 counterexample: in the stale-listing state the seller's balance
(10) is below the requested 20, so the guarded ownership subtraction would
underflow; the claim says buyShares then returns InsufficientBalance, but
the call returns success instead (it merely skips the transfer). -/
theorem claim9_counterexample :
    get_ownership staleState 1 uAlice < 20 ∧
    (buy_shares staleState 1 uAlice uBob 20).1 =
      Except.ok msgSharesBought := by
  exact ⟨by decide, rfl⟩

/-- Claim C9 (amended): every subtraction on a balance, on sharesAvailable
or on a listing amount inside issueShares, transferShares and buyShares is
guarded by a prior comparison, so the unsigned-underflow branch is
unreachable: each checked variant, which returns none on any underflow,
always returns the unchecked result.  transferShares returns
InsufficientBalance rather than underflowing; buyShares avoids the
underflow by skipping the ownership update while still reporting success
(see C10). -/
theorem claim9_no_underflow :
    (∀ s pid dst a, issue_shares_checked s pid dst a =
      some (issue_shares s pid dst a)) ∧
    (∀ s pid frm dst a, transfer_shares_checked s pid frm dst a =
      some (transfer_shares s pid frm dst a)) ∧
    (∀ s pid seller buyer a, buy_shares_checked s pid seller buyer a =
      some (buy_shares s pid seller buyer a)) ∧
    (∀ s pid frm dst a, get_ownership s pid frm < a →
      (transfer_shares s pid frm dst a).1 = Except.error msgErrTransfer) := by
  refine ⟨issue_checked_eq, transfer_checked_eq, buy_checked_eq, ?_⟩
  intro s pid frm dst a h
  exact (transfer_err_iff s pid frm dst a).mpr h

/-- Witness for C9 (amended): bob owns nothing in the self-transfer state,
so transferring 3 from him fails with the InsufficientBalance error. -/
theorem claim9_no_underflow_witness :
    (transfer_shares selfState 1 uBob uAlice 3).1 =
      Except.error msgErrTransfer :=
  claim9_no_underflow.2.2.2 selfState 1 uBob uAlice 3 (by decide)

/-- Claim C10: buyShares succeeds exactly when some listing matches
(propertyId, seller) with a listed amount covering the request,
independently of the seller's ledger balance; and when the first matching
listing exists but the seller's balance is short of the request, the call
still succeeds, every ownership balance is left unchanged, and the matched
listing is nevertheless removed (if fully consumed) or decremented. -/
theorem claim10_buy_stale_listing (s : State) (pid : Nat)
    (seller buyer : String) (a : Nat) :
    ((buy_shares s pid seller buyer a).1 = Except.ok msgSharesBought ↔
      ∃ l ∈ s.marketplace, listingMatches pid seller a l = true) ∧
    (∀ pre l post, s.marketplace = pre ++ l :: post →
      (∀ l2 ∈ pre, listingMatches pid seller a l2 = false) →
      listingMatches pid seller a l = true →
      get_ownership s pid seller < a →
      (buy_shares s pid seller buyer a).1 = Except.ok msgSharesBought ∧
      (∀ p u, get_ownership (buy_shares s pid seller buyer a).2 p u =
        get_ownership s p u) ∧
      (buy_shares s pid seller buyer a).2.marketplace =
        pre ++ (if l.amount = a then post
          else { l with amount := l.amount - a } :: post)) := by
  constructor
  · exact buy_shares_ok_iff s pid seller buyer a
  · intro pre l post hmp hpre hl hbal
    simp only [get_ownership] at hbal
    have hscan := buyScan_append s.ownership pid seller buyer a pre l post
      hpre hl
    simp only [buy_shares, hmp, hscan, get_ownership]
    refine ⟨trivial, ?_, rfl⟩
    intro p u
    show alGetD (buyOwnUpdate s.ownership pid seller buyer a) (p, u) =
      alGetD s.ownership (p, u)
    simp only [buyOwnUpdate, alGetD_or_insert]
    rw [if_pos hbal, alGetD_alAdd]
    simp

/-- Witness for C10: the stale-listing state - the buy succeeds and alice
keeps her 10 shares. -/
theorem claim10_buy_stale_listing_witness :
    (buy_shares staleState 1 uAlice uBob 20).1 = Except.ok msgSharesBought ∧
    get_ownership (buy_shares staleState 1 uAlice uBob 20).2 1 uAlice =
      get_ownership staleState 1 uAlice := by
  have h := (claim10_buy_stale_listing staleState 1 uAlice uBob 20).2 []
    { property_id := 1, seller := uAlice, amount := 30, price_per_share := 5 }
    [] (by decide) (by decide) (by decide) (by decide)
  exact ⟨h.1, h.2.1 1 uAlice⟩

end RealEstate
